import Mathlib

/-!
Verification development for the async web bruter
(`src/content_bruter.py`).  The Python program is shallowly embedded:
pure string manipulation is translated to Lean functions on
`String`/`List Char`, the aiohttp transport is an oracle function from
requests to responses, Python dicts are functions `String → Option
String`, and the asyncio worker loops become structural recursion over
the (FIFO) candidate queue.  Exceptions are modelled with `Option` /
`Except`.
-/

/-- Python's `needle in hay` test specialised to lists of characters:
`leadsWith needle hay` holds when `needle` is an initial segment of
`hay`. -/
def leadsWith : List Char → List Char → Bool
  | [], _ => true
  | _ :: _, [] => false
  | a :: as, b :: bs => a == b && leadsWith as bs

/-- Substring occurrence on character lists: `containsSub needle hay`. -/
def containsSub (needle : List Char) : List Char → Bool
  | [] => leadsWith needle []
  | c :: rest => leadsWith needle (c :: rest) || containsSub needle rest

/-- Python's substring operator `needle in hay` on strings. -/
def strContains (hay needle : String) : Bool :=
  containsSub needle.toList hay.toList

/-- The whitespace characters stripped by Python's `str.strip()`. -/
def isSpace (c : Char) : Bool :=
  c == ' ' || c == '\t' || c == '\n' || c == '\r' || c == '\x0b' || c == '\x0c'

/-- Python's `line.strip()`: drop whitespace from both ends. -/
def pyStrip (s : String) : String :=
  ⟨((s.toList.dropWhile isSpace).reverse.dropWhile isSpace).reverse⟩

/-- Python's `s.rstrip('/')`: drop every trailing `'/'`. -/
def rstripSlash (s : String) : String :=
  ⟨(s.toList.reverse.dropWhile (fun c => c == '/')).reverse⟩

/-- Python's `s.lstrip('/')`: drop every leading `'/'`. -/
def lstripSlash (s : String) : String :=
  ⟨s.toList.dropWhile (fun c => c == '/')⟩

/-- A Python dict with string keys and values. -/
abbrev Dict : Type := String → Option String

/-- Python's `d.get(k, dflt)`. -/
def dget (d : Dict) (k dflt : String) : String := (d k).getD dflt

/-- One key/value update, as performed by Python's `d[k] = v` /
`d.update`. -/
def dset (d : Dict) (k v : String) : Dict :=
  fun q => if q = k then some v else d q

/-- The `BruteForceConfig` dataclass (lines 25-35 of the source). -/
structure BruteForceConfig where
  target_url : String
  wordlist_path : String
  extensions : List String
  threads : Nat
  cookies : Dict
  headers : Dict
  form_data : Dict
  success_indicators : List String
  rate_limit_delay : Nat

/-- One recorded element of `found_paths`: directory mode appends the
`(status, url)` tuple, Joomla mode appends the bare password string. -/
inductive Entry where
  | pathHit (status : Nat) (url : String)
  | secret (password : String)
deriving DecidableEq

/-- The JSON values that `json.dump` can produce for one recorded
entry. -/
inductive Json where
  | str (s : String)
  | num (n : Nat)
  | arr (xs : List Json)

/-- How `json.dump` serialises one `found_paths` element: a Python
tuple becomes a JSON array, a string stays a string. -/
def Entry.toJson : Entry → Json
  | .pathHit s u => .arr [.num s, .str u]
  | .secret p => .str p

/-- Whether a serialised entry is a two-component pair. -/
def Json.isPair : Json → Bool
  | .arr xs => xs.length == 2
  | _ => false

/-- The mutable state shared by the workers of one run:
`found_paths`, `stop_event`, `scanned_count` (lines 42-45). -/
structure RunState where
  found : List Entry
  stop : Bool
  scanned : Nat
deriving DecidableEq

/-- A GET request as issued by `check_path`
(`session.get(url, allow_redirects=False)`). -/
structure GetRequest where
  url : String
  allow_redirects : Bool
deriving DecidableEq

/-- The transport's answer to one GET: `failure` models an exception
raised while connecting (no response at all); `success status body`
models a received response, where `body = none` models an exception
raised while reading `response.text()`. -/
inductive ConnectResult where
  | failure
  | success (status : Nat) (body : Option String)

/-- The URL built at line 81:
`f"{target_url.rstrip('/')}/{path.lstrip('/')}"`. -/
def check_path_url (cfg : BruteForceConfig) (path : String) : String :=
  rstripSlash cfg.target_url ++ "/" ++ lstripSlash path

/-- The GET request `check_path` issues for a candidate: the joined
URL, redirects not followed. -/
def check_path_get (cfg : BruteForceConfig) (path : String) : GetRequest :=
  ⟨check_path_url cfg path, false⟩

/-- The status set of line 93. -/
def interesting_statuses : List Nat := [200, 301, 302, 403]

/-- `WebBruter.check_path` (lines 79-99).  Takes the transport oracle
`net` and the current `scanned_count`; returns the `(status, url)`
outcome together with the new counter.  The counter is incremented
after the response is received (line 84), before the body is read, so
a connect failure skips it while a body-read failure does not. -/
def check_path (cfg : BruteForceConfig) (path : String)
    (net : GetRequest → ConnectResult) (scanned : Nat) :
    (Nat × String) × Nat :=
  let url := check_path_url cfg path
  match net (check_path_get cfg path) with
  | .failure => ((0, ""), scanned)
  | .success status body =>
    match body with
    | none => ((0, ""), scanned + 1)
    | some content =>
      if cfg.success_indicators.any (fun i => strContains content i) then
        ((status, url), scanned + 1)
      else if status ∈ interesting_statuses then
        ((status, url), scanned + 1)
      else
        ((0, ""), scanned + 1)

/-- The body of the `load_wordlist` loop for one input line
(lines 51-58): strip, skip empties, enqueue the word, and when the
word has no `'.'` and extensions are configured, enqueue each
`word + ext` right after it. -/
def emit_line (exts : List String) (line : String) : List String :=
  let word := pyStrip line
  if word = "" then []
  else if strContains word "." = false ∧ exts ≠ [] then
    word :: exts.map (fun e => word ++ e)
  else [word]

/-- `WebBruter.load_wordlist` (lines 47-61) as the queue contents it
produces, in FIFO order. -/
def load_wordlist (lines exts : List String) : List String :=
  match lines with
  | [] => []
  | l :: rest => emit_line exts l ++ load_wordlist rest exts

/-- Number of lines that survive the non-empty filter (the `N` of the
spec's counting property). -/
def nonempty_count : List String → Nat
  | [] => 0
  | l :: rest => (if pyStrip l = "" then 0 else 1) + nonempty_count rest

/-- Number of non-empty lines whose stripped word contains the
separator `'.'`. -/
def sep_count : List String → Nat
  | [] => 0
  | l :: rest =>
    (if pyStrip l ≠ "" ∧ strContains (pyStrip l) "." = true then 1 else 0)
      + sep_count rest

/-- A POST request as issued by `brute_force_login`
(`session.post(target_url, data=form_data, allow_redirects=True)`). -/
structure PostRequest where
  url : String
  data : Dict
  allow_redirects : Bool

/-- The form built at lines 163-169: the config's template dict,
updated with the username, the candidate password and the two Joomla
login task markers. -/
def build_login_form (base : Dict) (username password : String) : Dict :=
  dset (dset (dset (dset base "username" username)
    "passwd" password) "task" "login") "option" "com_login"

/-- The POST request one login attempt issues (lines 171-175). -/
def login_request (cfg : BruteForceConfig) (username password : String) :
    PostRequest :=
  ⟨cfg.target_url, build_login_form cfg.form_data username password, true⟩

/-- `JoomlaBruter.brute_force_login` (lines 160-183).  The transport
oracle `net` answers a POST with `some body` or `none` for a raised
exception; any exception makes the attempt return `False`. -/
def brute_force_login (cfg : BruteForceConfig) (username password : String)
    (net : PostRequest → Option String) : Bool :=
  match net (login_request cfg username password) with
  | none => false
  | some content =>
    cfg.success_indicators.any (fun i => strContains content i)

/-- `WebBruter.worker` (lines 101-109) run to completion over the FIFO
queue: while the queue is non-empty and the stop event is unset, pull
a candidate, probe it, and append `(status, url)` to `found_paths`
when `status > 0`.  Returns the final state and the unconsumed part of
the queue. -/
def dir_worker (cfg : BruteForceConfig) (net : GetRequest → ConnectResult) :
    List String → RunState → RunState × List String
  | [], st => (st, [])
  | path :: rest, st =>
    if st.stop then (st, path :: rest)
    else
      let r := check_path cfg path net st.scanned
      let st' : RunState :=
        { st with
          scanned := r.2,
          found :=
            if 0 < r.1.1 then st.found ++ [Entry.pathHit r.1.1 r.1.2]
            else st.found }
      dir_worker cfg net rest st'

/-- `JoomlaBruter.worker` (lines 185-193): same loop, but each
candidate is a password tried with the fixed username
`form_data.get("username", "admin")`; a successful login is appended
to `found_paths` and sets the stop event. -/
def joomla_worker (cfg : BruteForceConfig) (net : PostRequest → Option String) :
    List String → RunState → RunState × List String
  | [], st => (st, [])
  | pwd :: rest, st =>
    if st.stop then (st, pwd :: rest)
    else
      if brute_force_login cfg (dget cfg.form_data "username" "admin") pwd net
      then
        joomla_worker cfg net rest
          { st with found := st.found ++ [Entry.secret pwd], stop := true }
      else
        joomla_worker cfg net rest st

/-- The fatal setup error kinds of the engine: the aiohttp session
cannot be created (line 63-72) or the wordlist cannot be opened/read
(lines 47-61, re-raised at line 61). -/
inductive RunError where
  | sessionSetupFailed
  | sourceUnavailable
deriving DecidableEq

/-- The result-saving block of `run` (lines 131-135):
`if self.found_paths: json.dump(self.found_paths, f)`.  `some l`
means the file `found_paths.json` is written with contents `l`;
`none` means no file is created or modified. -/
def save_results (found : List Entry) : Option (List Entry) :=
  if found = [] then none else some found

/-- `WebBruter.run` (lines 111-138), directory mode: initialise the
session, load the wordlist into the queue, drain it with the workers,
then save results.  `sessionOk = false` models an exception from
`init_session`; `wordlist = none` models an unreadable wordlist file.
Either failure propagates out before any worker is launched. -/
def run (cfg : BruteForceConfig) (sessionOk : Bool)
    (wordlist : Option (List String)) (net : GetRequest → ConnectResult) :
    Except RunError (RunState × Option (List Entry)) :=
  if sessionOk then
    match wordlist with
    | none => Except.error RunError.sourceUnavailable
    | some lines =>
      let final :=
        (dir_worker cfg net (load_wordlist lines cfg.extensions)
          ⟨[], false, 0⟩).1
      Except.ok (final, save_results final.found)
  else Except.error RunError.sessionSetupFailed

/-- How `main` (lines 203-265) terminates: the engine completed
(possibly with a propagated fatal error) or the user interrupted. -/
inductive Termination where
  | completed (r : Except RunError (RunState × Option (List Entry)))
  | interrupted

/-- The process exit code chosen by `main`: fatal errors exit 1
(line 262), interruption exits 0 (line 265), normal completion 0. -/
def exit_code : Termination → Nat
  | .completed (.error _) => 1
  | .completed (.ok _) => 0
  | .interrupted => 0

def cfgC1 : BruteForceConfig :=
  ⟨"http://t/", "w", [], 1, fun _ => none, fun _ => none, fun _ => none,
    ["flag"], 0⟩

def netC1 : GetRequest → ConnectResult :=
  fun _ => ConnectResult.success 404 (some "a flag here")

def wlC2 : List String := [" admin ", "login.php"]

def cfgC3 : BruteForceConfig :=
  ⟨"http://j", "w", [], 1, fun _ => none, fun _ => none,
    (fun k => if k = "username" then some "root" else none),
    ["Control Panel"], 1⟩

def netC3 : PostRequest → Option String := fun _ => some "the Control Panel"

def cfgC4 : BruteForceConfig :=
  ⟨"http://t", "w", [], 1, fun _ => none, fun _ => none, fun _ => none, [], 0⟩

def cfgC5 : BruteForceConfig :=
  ⟨"http://t", "w", [], 2, fun _ => none, fun _ => none, fun _ => none,
    ["ok"], 0⟩

def cfgC6 : BruteForceConfig :=
  ⟨"http://t", "w", [], 1, fun _ => none, fun _ => none, fun _ => none,
    ["ok"], 0⟩

def cfgC7 : BruteForceConfig :=
  ⟨"http://t", "w", [], 1, fun _ => none, fun _ => none, fun _ => none,
    ["ok"], 0⟩

def cfgC9 : BruteForceConfig :=
  ⟨"http://t", "w", [], 1, fun _ => none, fun _ => none, fun _ => none,
    ["Control Panel"], 0⟩

def netC9 : PostRequest → Option String := fun _ => some "the Control Panel"

def cfgC9w : BruteForceConfig :=
  ⟨"http://t", "w", [], 1, fun _ => none, fun _ => none, fun _ => none,
    [], 0⟩

def netC9w : GetRequest → ConnectResult :=
  fun _ => ConnectResult.success 200 (some "")

example : load_wordlist ["admin", " login.php ", "", "test"] [".php"]
    = ["admin", "admin.php", "login.php", "test", "test.php"] := by decide

lemma string_data_append (a b : String) : (a ++ b).data = a.data ++ b.data := rfl

/-- The joined URL always contains the separator, so it is never the
empty string (and in particular never collides with the `(0, "")`
miss value). -/
lemma url_ne_empty (a b : String) : a ++ "/" ++ b ≠ "" := by
  intro h
  have h2 := congrArg String.data h
  rw [string_data_append, string_data_append] at h2
  simp at h2

/-- A worker whose stop event is already set pulls nothing
(directory mode). -/
lemma dir_worker_stopped (cfg : BruteForceConfig)
    (net : GetRequest → ConnectResult) (q : List String) (st : RunState)
    (h : st.stop = true) : dir_worker cfg net q st = (st, q) := by
  cases q with
  | nil => rfl
  | cons p rest => simp [dir_worker, h]

/-- A worker whose stop event is already set pulls nothing
(credential mode). -/
lemma joomla_worker_stopped (cfg : BruteForceConfig)
    (net : PostRequest → Option String) (q : List String) (st : RunState)
    (h : st.stop = true) : joomla_worker cfg net q st = (st, q) := by
  cases q with
  | nil => rfl
  | cons p rest => simp [joomla_worker, h]

/-- The directory worker never touches the stop event. -/
lemma dir_worker_stop_eq (cfg : BruteForceConfig)
    (net : GetRequest → ConnectResult) :
    ∀ (q : List String) (st : RunState),
      (dir_worker cfg net q st).1.stop = st.stop := by
  intro q
  induction q with
  | nil => intro st; rfl
  | cons p rest ih =>
    intro st
    by_cases h : st.stop
    · simp [dir_worker, h]
    · simp only [Bool.not_eq_true] at h
      simp only [dir_worker, h, Bool.false_eq_true, if_false]
      rw [ih]

/-- Once the stop event is set, the credential worker leaves it
set. -/
lemma joomla_worker_stop_mono (cfg : BruteForceConfig)
    (net : PostRequest → Option String) (q : List String) (st : RunState)
    (h : st.stop = true) : (joomla_worker cfg net q st).1.stop = true := by
  rw [joomla_worker_stopped cfg net q st h, h]

/-- With a transport that fails on every request, the directory
worker drains the whole queue without recording anything and without
touching the counter. -/
lemma dir_worker_allfail (cfg : BruteForceConfig) :
    ∀ (q : List String) (st : RunState), st.stop = false →
      dir_worker cfg (fun _ => ConnectResult.failure) q st = (st, []) := by
  intro q
  induction q with
  | nil => intro st _; rfl
  | cons p rest ih =>
    rintro ⟨f, s, c⟩ h
    obtain rfl : s = false := h
    have hcp : check_path cfg p (fun _ => ConnectResult.failure) c
        = ((0, ""), c) := rfl
    simp only [dir_worker, Bool.false_eq_true, if_false, hcp]
    simpa using ih ⟨f, false, c⟩ rfl

/-- With a transport that fails on every request, the credential
worker drains the whole queue without recording anything. -/
lemma joomla_worker_allnone (cfg : BruteForceConfig) :
    ∀ (q : List String) (st : RunState), st.stop = false →
      joomla_worker cfg (fun _ => none) q st = (st, []) := by
  intro q
  induction q with
  | nil => intro st _; rfl
  | cons p rest ih =>
    rintro ⟨f, s, c⟩ h
    obtain rfl : s = false := h
    have hb : brute_force_login cfg (dget cfg.form_data "username" "admin") p
        (fun _ => none) = false := rfl
    simp only [joomla_worker, Bool.false_eq_true, if_false, hb]
    simpa using ih ⟨f, false, c⟩ rfl

/-- C1: for every candidate path, `check_path` requests the URL formed
by joining the target base with its trailing `'/'` stripped to the
candidate with its leading `'/'` stripped, without following
redirects, and returns a Hit `(response status, that URL)` if and only
if the body contains a configured success indicator or the status is
in {200, 301, 302, 403}; an indicator match yields a Hit independent
of the status value; otherwise it returns the Miss `(0, "")`. -/
theorem check_path_classification (cfg : BruteForceConfig) (path : String)
    (net : GetRequest → ConnectResult) (scanned status : Nat) (content : String)
    (hr : net (check_path_get cfg path) =
      ConnectResult.success status (some content)) :
    check_path_url cfg path
        = rstripSlash cfg.target_url ++ "/" ++ lstripSlash path ∧
    (check_path_get cfg path).allow_redirects = false ∧
    ((check_path cfg path net scanned).1 = (status, check_path_url cfg path) ↔
      (cfg.success_indicators.any (fun i => strContains content i) = true ∨
        status ∈ interesting_statuses)) ∧
    (cfg.success_indicators.any (fun i => strContains content i) = true →
      (check_path cfg path net scanned).1 = (status, check_path_url cfg path)) ∧
    (cfg.success_indicators.any (fun i => strContains content i) = false ∧
        status ∉ interesting_statuses →
      (check_path cfg path net scanned).1 = (0, "")) := by
  have hu : check_path_url cfg path ≠ "" := url_ne_empty _ _
  refine ⟨rfl, rfl, ?_, ?_, ?_⟩
  · by_cases hA : cfg.success_indicators.any (fun i => strContains content i)
    · simp [check_path, hr, hA]
    · simp only [Bool.not_eq_true] at hA
      by_cases hS : status ∈ interesting_statuses
      · simp [check_path, hr, hA, hS]
      · simp only [check_path, hr, hA, Bool.false_eq_true, if_false, hS,
          Bool.false_eq_true, or_false]
        constructor
        · intro hEq
          exact absurd (congrArg Prod.snd hEq).symm hu
        · intro hEq
          exact absurd hEq (by simp [hA, hS])
  · intro hA
    simp [check_path, hr, hA]
  · rintro ⟨hA, hS⟩
    simp [check_path, hr, hA, hS]

/-- Witness for C1: with indicator `"flag"` present in the body, a 404
response is still classified a Hit carrying the joined URL. -/
theorem check_path_classification_witness :
    (check_path cfgC1 "admin" netC1 7).1 = (404, check_path_url cfgC1 "admin") :=
  (check_path_classification cfgC1 "admin" netC1 7 404 "a flag here"
    rfl).2.2.2.1 (by decide)

/-- C4 amended: `check_path` increments the shared probe counter by
exactly one whenever the request yields a response (Hit, Miss, or
body-read failure), but a transport failure raised before a response
is received leaves the counter unchanged. -/
theorem scanned_counter_increment (cfg : BruteForceConfig) (path : String)
    (net : GetRequest → ConnectResult) (scanned : Nat) :
    (check_path cfg path net scanned).2 =
      (match net (check_path_get cfg path) with
       | ConnectResult.failure => scanned
       | ConnectResult.success _ _ => scanned + 1) := by
  unfold check_path
  cases h : net (check_path_get cfg path) with
  | failure => rfl
  | success status body =>
    cases body with
    | none => rfl
    | some content =>
      by_cases hA : cfg.success_indicators.any (fun i => strContains content i)
      · simp [hA]
      · by_cases hS : status ∈ interesting_statuses <;>
          simp [hA, hS]

/-- C4 counterexample: a probe whose GET raises a transport error
(connection failure) leaves `scanned_count` unchanged, refuting the
claim that every invocation increments it by exactly one. -/
theorem scanned_counter_increment_cex :
    (check_path cfgC4 "admin" (fun _ => ConnectResult.failure) 5).2 = 5 ∧
    (check_path cfgC4 "admin" (fun _ => ConnectResult.failure) 5).2 ≠ 5 + 1 := by
  constructor <;> decide

/-- C5: ordinary network failures never escape a probe: a connect
failure or a body-read failure yields the Miss `(0, "")` in directory
mode and `false` in credential mode, the workers drain the entire
queue anyway, and a run whose every request fails completes without a
fatal error with zero hits and no results file. -/
theorem transport_errors_nonfatal (cfg : BruteForceConfig) (path : String)
    (scanned : Nat) (q : List String) (st : RunState) (h : st.stop = false) :
    (check_path cfg path (fun _ => ConnectResult.failure) scanned).1 = (0, "") ∧
    (check_path cfg path (fun _ => ConnectResult.success 200 none) scanned).1
        = (0, "") ∧
    (∀ u p, brute_force_login cfg u p (fun _ => none) = false) ∧
    dir_worker cfg (fun _ => ConnectResult.failure) q st = (st, []) ∧
    joomla_worker cfg (fun _ => none) q st = (st, []) ∧
    run cfg true (some q) (fun _ => ConnectResult.failure) =
      Except.ok (⟨[], false, 0⟩, none) := by
  refine ⟨rfl, rfl, fun u p => rfl, dir_worker_allfail cfg q st h,
    joomla_worker_allnone cfg q st h, ?_⟩
  simp only [run]
  rw [dir_worker_allfail cfg _ ⟨[], false, 0⟩ rfl]
  rfl

/-- Witness for C5: a two-candidate queue is fully drained under an
always-failing transport, recording nothing. -/
theorem transport_errors_nonfatal_witness :
    dir_worker cfgC5 (fun _ => ConnectResult.failure) ["a", "b"]
      ⟨[], false, 3⟩ = (⟨[], false, 3⟩, []) :=
  (transport_errors_nonfatal cfgC5 "x" 0 ["a", "b"] ⟨[], false, 3⟩
    rfl).2.2.2.1

/-- C6: once the stop event is set, neither worker pulls or starts
processing another candidate: the worker exits its loop at the pull
boundary, returning the state and the queue untouched. -/
theorem no_candidate_after_stop (cfg : BruteForceConfig)
    (netG : GetRequest → ConnectResult) (netP : PostRequest → Option String)
    (q : List String) (st : RunState) (h : st.stop = true) :
    dir_worker cfg netG q st = (st, q) ∧
    joomla_worker cfg netP q st = (st, q) :=
  ⟨dir_worker_stopped cfg netG q st h, joomla_worker_stopped cfg netP q st h⟩

/-- Witness for C6: with the stop event set, a non-empty queue is left
untouched by both workers. -/
theorem no_candidate_after_stop_witness :
    dir_worker cfgC6 (fun _ => ConnectResult.failure) ["x"] ⟨[], true, 0⟩
        = (⟨[], true, 0⟩, ["x"]) ∧
    joomla_worker cfgC6 (fun _ => none) ["x"] ⟨[], true, 0⟩
        = (⟨[], true, 0⟩, ["x"]) :=
  no_candidate_after_stop cfgC6 (fun _ => ConnectResult.failure)
    (fun _ => none) ["x"] ⟨[], true, 0⟩ rfl

/-- C7: the stop flag is monotone: the directory worker never changes
it at all, and the credential worker never clears it once set — no
worker operation transitions it back to the running state. -/
theorem stop_flag_monotone (cfg : BruteForceConfig)
    (netG : GetRequest → ConnectResult) (netP : PostRequest → Option String)
    (q : List String) (st : RunState) :
    (dir_worker cfg netG q st).1.stop = st.stop ∧
    (st.stop = true → (joomla_worker cfg netP q st).1.stop = true) :=
  ⟨dir_worker_stop_eq cfg netG q st,
    fun h => joomla_worker_stop_mono cfg netP q st h⟩

/-- Witness for C7: a set stop flag survives a credential-worker
pass over a non-empty queue. -/
theorem stop_flag_monotone_witness :
    (joomla_worker cfgC7 (fun _ => none) ["x"] ⟨[], true, 0⟩).1.stop = true :=
  (stop_flag_monotone cfgC7 (fun _ => ConnectResult.failure) (fun _ => none)
    ["x"] ⟨[], true, 0⟩).2 rfl

/-- The number of candidates one input line contributes. -/
lemma emit_line_length (exts : List String) (l : String) :
    (emit_line exts l).length =
      if pyStrip l = "" then 0
      else if strContains (pyStrip l) "." = false ∧ exts ≠ [] then
        exts.length + 1
      else 1 := by
  unfold emit_line
  by_cases h1 : pyStrip l = ""
  · simp [h1]
  · by_cases h2 : strContains (pyStrip l) "." = false ∧ exts ≠ []
    · simp [h1, h2]
    · simp [h1, h2]

/-- Exact count of the queue `load_wordlist` produces: every
non-empty line contributes `1 + K` except that a line containing the
separator (or an empty suffix list) misses the `K` variants. -/
lemma load_wordlist_length_eq (exts : List String) :
    ∀ lines : List String,
      (load_wordlist lines exts).length + sep_count lines * exts.length
        = nonempty_count lines * (1 + exts.length) := by
  intro lines
  induction lines with
  | nil => simp [load_wordlist, sep_count, nonempty_count]
  | cons l rest ih =>
    simp only [load_wordlist, List.length_append, sep_count, nonempty_count,
      emit_line_length]
    by_cases h1 : pyStrip l = ""
    · have hsf : ¬(pyStrip l ≠ "" ∧ strContains (pyStrip l) "." = true) := by
        simp [h1]
      rw [if_pos h1, if_neg hsf, if_pos h1]
      simpa using ih
    · by_cases h3 : strContains (pyStrip l) "." = true
      · have h2 : ¬(strContains (pyStrip l) "." = false ∧ exts ≠ []) := by
          simp [h3]
        have hsf : pyStrip l ≠ "" ∧ strContains (pyStrip l) "." = true :=
          ⟨h1, h3⟩
        rw [if_neg h1, if_neg h2, if_pos hsf, if_neg h1]
        simp only [Nat.add_mul, Nat.one_mul]
        linarith [ih]
      · have h3' : strContains (pyStrip l) "." = false := by
          simpa using h3
        have hsf : ¬(pyStrip l ≠ "" ∧ strContains (pyStrip l) "." = true) := by
          simp [h3']
        by_cases hE : exts = []
        · subst hE
          have h2 : ¬(strContains (pyStrip l) "." = false ∧
              ([] : List String) ≠ []) := by simp
          rw [if_neg h1, if_neg h2, if_neg hsf, if_neg h1]
          simp only [List.length_nil, Nat.mul_zero, Nat.add_zero, Nat.mul_one,
            Nat.zero_add] at ih ⊢
          omega
        · have h2 : strContains (pyStrip l) "." = false ∧ exts ≠ [] :=
            ⟨h3', hE⟩
          rw [if_neg h1, if_pos h2, if_neg hsf, if_neg h1]
          simp only [Nat.add_mul, Nat.one_mul, Nat.zero_add]
          linarith [ih]

/-- Lines whose word contains the separator are a subset of the
non-empty lines. -/
lemma sep_le_nonempty : ∀ lines : List String,
    sep_count lines ≤ nonempty_count lines := by
  intro lines
  induction lines with
  | nil => simp [sep_count, nonempty_count]
  | cons l rest ih =>
    simp only [sep_count, nonempty_count]
    by_cases h1 : pyStrip l = ""
    · simp [h1]; omega
    · by_cases h3 : strContains (pyStrip l) "." = true
      · simp [h1, h3]; omega
      · simp [h1, h3]; omega

/-- C2 amended: `load_wordlist` enqueues each non-empty trimmed line
once, immediately followed by its per-suffix variants when the word
has no separator and suffixes are configured; the total count lies
between N and N·(1+K), and equals N·(1+K) exactly when K = 0 or every
non-empty line's word lacks the separator character. -/
theorem load_wordlist_candidate_count (lines exts : List String) :
    (∀ l rest, load_wordlist (l :: rest) exts
        = emit_line exts l ++ load_wordlist rest exts) ∧
    (∀ l : String, pyStrip l ≠ "" → strContains (pyStrip l) "." = false →
      exts ≠ [] →
      emit_line exts l = pyStrip l :: exts.map (fun e => pyStrip l ++ e)) ∧
    (∀ l : String, pyStrip l ≠ "" →
      ¬(strContains (pyStrip l) "." = false ∧ exts ≠ []) →
      emit_line exts l = [pyStrip l]) ∧
    nonempty_count lines ≤ (load_wordlist lines exts).length ∧
    (load_wordlist lines exts).length
        ≤ nonempty_count lines * (1 + exts.length) ∧
    ((load_wordlist lines exts).length
        = nonempty_count lines * (1 + exts.length) ↔
      (exts.length = 0 ∨ sep_count lines = 0)) := by
  have heq := load_wordlist_length_eq exts lines
  have hle := sep_le_nonempty lines
  have hexp : nonempty_count lines * (1 + exts.length)
      = nonempty_count lines + nonempty_count lines * exts.length := by
    rw [Nat.mul_add, Nat.mul_one]
  have hSK : sep_count lines * exts.length
      ≤ nonempty_count lines * exts.length :=
    Nat.mul_le_mul_right _ hle
  refine ⟨fun l rest => rfl, ?_, ?_, ?_, ?_, ?_⟩
  · intro l h1 h2 h3
    simp [emit_line, h1, h2, h3]
  · intro l h1 h2
    simp [emit_line, h1, h2]
  · rw [hexp] at heq
    generalize hA : sep_count lines * exts.length = a at heq hSK
    generalize hB : nonempty_count lines * exts.length = b at heq hSK
    omega
  · generalize hM : nonempty_count lines * (1 + exts.length) = m at heq
    omega
  · constructor
    · intro hL
      have ha : sep_count lines * exts.length = 0 := by
        generalize hM : nonempty_count lines * (1 + exts.length) = m at heq hL
        omega
      rcases Nat.mul_eq_zero.mp ha with h | h
      · exact Or.inr h
      · exact Or.inl h
    · intro h
      have ha : sep_count lines * exts.length = 0 := by
        rcases h with h | h
        · rw [h, Nat.mul_zero]
        · rw [h, Nat.zero_mul]
      rw [ha] at heq
      simpa using heq

/-- Witness for C2 amended: a separator-free line expands to the word
followed by its suffix variants. -/
theorem load_wordlist_candidate_count_witness :
    emit_line [".php"] " admin "
      = pyStrip " admin " :: [".php"].map (fun e => pyStrip " admin " ++ e) :=
  (load_wordlist_candidate_count wlC2 [".php"]).2.1 " admin "
    (by decide) (by decide) (by decide)

/-- C2 counterexample: with zero configured suffixes and the single
line `"a.b"`, which contains the separator, the candidate count still
equals N·(1+K) — refuting the claim's “equality exactly when every
line lacks a separator character”. -/
theorem load_wordlist_candidate_count_cex :
    (load_wordlist ["a.b"] []).length
        = nonempty_count ["a.b"] * (1 + List.length ([] : List String)) ∧
    sep_count ["a.b"] ≠ 0 := by
  constructor <;> decide

/-- C3: a credential attempt posts the template fields merged with the
fixed username, the candidate in the `passwd` field and the Joomla
login task markers, following redirects; it is a Hit iff the body
contains a configured success indicator; and on a Hit the worker
records the password and sets the stop event, leaving the rest of the
queue unconsumed (first-valid-credential-wins). -/
theorem credential_probe_spec (cfg : BruteForceConfig)
    (username password content pwd : String)
    (net : PostRequest → Option String) (rest : List String) (st : RunState)
    (hc : net (login_request cfg username password) = some content)
    (hstop : st.stop = false)
    (hhit : brute_force_login cfg (dget cfg.form_data "username" "admin")
      pwd net = true) :
    (login_request cfg username password).data "passwd" = some password ∧
    (login_request cfg username password).data "username" = some username ∧
    (login_request cfg username password).data "task" = some "login" ∧
    (login_request cfg username password).data "option" = some "com_login" ∧
    (∀ k, k ≠ "username" → k ≠ "passwd" → k ≠ "task" → k ≠ "option" →
      (login_request cfg username password).data k = cfg.form_data k) ∧
    (login_request cfg username password).allow_redirects = true ∧
    (brute_force_login cfg username password net = true ↔
      cfg.success_indicators.any (fun i => strContains content i) = true) ∧
    joomla_worker cfg net (pwd :: rest) st =
      ({ st with found := st.found ++ [Entry.secret pwd], stop := true },
        rest) := by
  refine ⟨rfl, rfl, rfl, rfl, ?_, rfl, ?_, ?_⟩
  · intro k h1 h2 h3 h4
    simp [login_request, build_login_form, dset, h1, h2, h3, h4]
  · unfold brute_force_login
    rw [hc]
  · have hstep : joomla_worker cfg net (pwd :: rest) st
        = joomla_worker cfg net rest
            { st with found := st.found ++ [Entry.secret pwd], stop := true } := by
      simp [joomla_worker, hstop, hhit]
    rw [hstep,
      joomla_worker_stopped cfg net rest
        { st with found := st.found ++ [Entry.secret pwd], stop := true } rfl]

/-- Witness for C3: the first valid password is recorded, the stop
event is set, and the remaining candidate is left unconsumed. -/
theorem credential_probe_spec_witness :
    joomla_worker cfgC3 netC3 ["letmein", "next"] ⟨[], false, 0⟩
      = (⟨[Entry.secret "letmein"], true, 0⟩, ["next"]) := by
  have h := (credential_probe_spec cfgC3 "root" "letmein" "the Control Panel"
    "letmein" netC3 ["next"] ⟨[], false, 0⟩ rfl rfl (by decide)).2.2.2.2.2.2.2
  simpa using h

/-- C8: an unreadable wordlist or a failed session initialisation is
fatal: `run` returns the distinct error before any worker is launched
or any probe attempted, `main` exits 1 on a fatal error, while user
interruption and normal completion exit 0. -/
theorem fatal_setup_errors (cfg : BruteForceConfig)
    (wl : Option (List String)) (net : GetRequest → ConnectResult) :
    run cfg false wl net = Except.error RunError.sessionSetupFailed ∧
    run cfg true none net = Except.error RunError.sourceUnavailable ∧
    (∀ e : RunError,
      exit_code (Termination.completed (Except.error e)) = 1) ∧
    exit_code Termination.interrupted = 0 ∧
    (∀ r, exit_code (Termination.completed (Except.ok r)) = 0) :=
  ⟨rfl, rfl, fun _ => rfl, rfl, fun _ => rfl⟩

/-- Every entry the directory worker adds to `found_paths` is a
`(status, url)` tuple, so pair-shapedness of the collection is
preserved. -/
lemma dir_worker_found_pairs (cfg : BruteForceConfig)
    (net : GetRequest → ConnectResult) :
    ∀ (q : List String) (st : RunState),
      (∀ e ∈ st.found, (Entry.toJson e).isPair = true) →
      ∀ e ∈ (dir_worker cfg net q st).1.found,
        (Entry.toJson e).isPair = true := by
  intro q
  induction q with
  | nil => intro st h; exact h
  | cons p rest ih =>
    intro st h
    by_cases hs : st.stop
    · rw [dir_worker_stopped cfg net _ _ hs]
      exact h
    · simp only [Bool.not_eq_true] at hs
      simp only [dir_worker, hs, Bool.false_eq_true, if_false]
      apply ih
      intro e he
      dsimp only at he
      by_cases h0 : 0 < (check_path cfg p net st.scanned).1.1
      · rw [if_pos h0] at he
        rcases List.mem_append.mp he with h1 | h1
        · exact h e h1
        · rw [List.mem_singleton.mp h1]
          rfl
      · rw [if_neg h0] at he
        exact h e he

/-- Every entry the credential worker adds to `found_paths` is a bare
password string. -/
lemma joomla_worker_found_secret (cfg : BruteForceConfig)
    (net : PostRequest → Option String) :
    ∀ (q : List String) (st : RunState),
      (∀ e ∈ st.found, ∃ p, e = Entry.secret p) →
      ∀ e ∈ (joomla_worker cfg net q st).1.found,
        ∃ p, e = Entry.secret p := by
  intro q
  induction q with
  | nil => intro st h; exact h
  | cons p rest ih =>
    intro st h
    by_cases hs : st.stop
    · rw [joomla_worker_stopped cfg net _ _ hs]
      exact h
    · simp only [Bool.not_eq_true] at hs
      simp only [joomla_worker, hs, Bool.false_eq_true, if_false]
      by_cases hb : brute_force_login cfg (dget cfg.form_data "username" "admin")
          p net = true
      · simp only [hb, if_true]
        apply ih
        intro e he
        rcases List.mem_append.mp he with h1 | h1
        · exact h e h1
        · exact ⟨p, List.mem_singleton.mp h1⟩
      · simp only [Bool.not_eq_true] at hb
        simp only [hb, Bool.false_eq_true, if_false]
        exact ih st h

/-- C9 amended: at run end every recorded Hit is persisted, but its
serialised shape depends on the mode: enumeration-mode entries are
two-component `(status, locator)` pairs, while credential-mode
entries are bare secret strings, not pairs. -/
theorem persisted_entry_shapes (cfg : BruteForceConfig)
    (netG : GetRequest → ConnectResult) (netP : PostRequest → Option String)
    (q : List String) (s : Bool) (c : Nat) :
    (∀ e ∈ (dir_worker cfg netG q ⟨[], s, c⟩).1.found,
      (Entry.toJson e).isPair = true) ∧
    (∀ e ∈ (joomla_worker cfg netP q ⟨[], s, c⟩).1.found,
      ∃ p, e = Entry.secret p ∧ (Entry.toJson e).isPair = false) := by
  constructor
  · exact dir_worker_found_pairs cfg netG q ⟨[], s, c⟩ (by intro e he; cases he)
  · intro e he
    rcases joomla_worker_found_secret cfg netP q ⟨[], s, c⟩
      (by intro e he; cases he) e he with ⟨p, rfl⟩
    exact ⟨p, rfl, rfl⟩

/-- C9 counterexample: a credential-mode hit is recorded as the bare
password and serialises to a JSON string, not a two-component pair. -/
theorem persisted_entry_shapes_cex :
    (joomla_worker cfgC9 netC9 ["letmein"] ⟨[], false, 0⟩).1.found
        = [Entry.secret "letmein"] ∧
    (Entry.toJson (Entry.secret "letmein")).isPair = false := by
  constructor
  · decide
  · rfl

/-- Witness for C9 amended: a concrete directory-mode hit serialises
as a two-component pair. -/
theorem persisted_entry_shapes_witness :
    (Entry.toJson (Entry.pathHit 200 "http://t/admin")).isPair = true :=
  (persisted_entry_shapes cfgC9w netC9w (fun _ => none) ["admin"] false 0).1
    (Entry.pathHit 200 "http://t/admin") (by decide)

/-- C10: the results file is written if and only if at least one Hit
was recorded: `run` persists exactly `save_results` of the final
collection, and `save_results` yields no file precisely on an empty
collection — this covers normal completion and the post-cancellation
path alike, both of which run the same saving block. -/
theorem results_file_iff_hits (cfg : BruteForceConfig) (lines : List String)
    (net : GetRequest → ConnectResult) :
    (∀ found : List Entry, save_results found = none ↔ found = []) ∧
    run cfg true (some lines) net =
      Except.ok
        ((dir_worker cfg net (load_wordlist lines cfg.extensions)
            ⟨[], false, 0⟩).1,
          save_results
            (dir_worker cfg net (load_wordlist lines cfg.extensions)
              ⟨[], false, 0⟩).1.found) := by
  constructor
  · intro found
    unfold save_results
    split <;> simp_all
  · rfl

example : check_path
    ⟨"http://t/", "w", [], 1, fun _ => none, fun _ => none, fun _ => none,
      ["flag"], 0⟩ "admin"
    (fun _ => .success 404 (some "a flag here")) 7
    = ((404, "http://t/admin"), 8) := by decide
